import Mathlib

/-!
# Verification of the `cleancode` fixed-capacity cache library

A shallow embedding of the C sources (`src/libcache.c`, `src/hash.c`,
`src/pool.c`, `include/list.h`) together with theorems settling the
specification claims.

Pointers are represented by natural-number identifiers; `NULL` pointers in
argument or field positions are represented by `Option`.  The doubly linked
list implementation (`list.c`) and the slab-pool layer (`libpool`) used by
`libcache.c` are not part of the sources; their operations are modelled from
the specification, as marked on each definition.
-/

set_option autoImplicit false

/-- Opaque key contents (a fixed-size byte buffer in C, abstracted to `ℕ`).
`memset(key, 0, key_size)` is modelled as setting the contents to `0`. -/
abbrev Key := ℕ

/-- Byte strings: payload buffers are lists of bytes. -/
abbrev Bytes := List ℕ

/-! ## Doubly linked list operations

`list.c` is not among the sources (only `list.h` and the spec describe it).
The list operations below are modelled from the spec, §4.1: O(1)
push/pop/remove, and traversal with a visitor that "returns 0 to stop
(current node is the result), 1 to continue, negative to abort with no
result".  Lists are represented front-to-back. -/

section ListOps

variable {α : Type} [DecidableEq α]

/-- Modelled from the spec: `list_push_front` inserts at the beginning. -/
def list_push_front (l : List α) (n : α) : List α := n :: l

/-- Modelled from the spec: `list_push_back` inserts at the back. -/
def list_push_back (l : List α) (n : α) : List α := l ++ [n]

/-- Modelled from the spec: `list_pop_front` removes and returns the first
element (`NULL` on an empty list). -/
def list_pop_front (l : List α) : List α × Option α :=
  match l with
  | [] => ([], none)
  | x :: xs => (xs, some x)

/-- Modelled from the spec: `list_pop_back` removes and returns the last
element (`NULL` on an empty list). -/
def list_pop_back (l : List α) : List α × Option α :=
  (l.dropLast, l.getLast?)

/-- Modelled from the spec: `list_remove` unlinks the given member node. -/
def list_remove (l : List α) (n : α) : List α := l.erase n

/-- Modelled from the spec, §4.1 visitor contract: traversal stops at the
first node whose visitor result is `0` and returns it, continues on a
positive result, and aborts with no result on a negative result.
This is `list_foreach_with_context` / `list_foreach_with_usr_data`. -/
def list_foreach_with_usr_data (l : List α) (f : α → ℤ) : Option α :=
  match l with
  | [] => none
  | x :: xs =>
    if f x = 0 then some x
    else if f x < 0 then none
    else list_foreach_with_usr_data xs f

/-- Modelled from the spec: `list_reverse_foreach` traverses from the tail
toward the head under the same visitor contract. -/
def list_reverse_foreach (l : List α) (f : α → ℤ) : Option α :=
  list_foreach_with_usr_data l.reverse f

end ListOps

/-! ## Hash index (`src/hash.c`) -/

/-- `GOLDEN_RATIO_PRIME_32` from `hash.c`. -/
def GOLDEN_RATIO_PRIME_32 : ℕ := 0x9e370001

/-- `MAX_BUCKETS` from `hash.c`. -/
def MAX_BUCKETS : ℕ := 0xffffffff

/-- Loop body of `get_bits`: `while (val >>= 1 != 0) count++;`.
The fuel argument bounds the iteration count; a 32-bit value is exhausted
after at most 31 shifts, so fuel 32 reproduces the C loop exactly for
every `u32` input. -/
def get_bits_go : ℕ → ℕ → ℕ → ℕ
  | 0, _, count => count
  | fuel + 1, val, count =>
    if val / 2 = 0 then count else get_bits_go fuel (val / 2) (count + 1)

/-- `get_bits` from `hash.c`: `count = 1; while (val >>= 1 != 0) count++;`
(the condition parses as `val >>= (1 != 0)`, i.e. shift by one each
iteration).  The argument is a `u32`, hence the `% 2^32`. -/
def get_bits (val : ℕ) : ℕ := get_bits_go 32 (val % 4294967296) 1

/-- `get_bucket_number` from `hash.c`: `val >= 32 ? MAX_BUCKETS : 2^val - 1`. -/
def get_bucket_number (val : ℕ) : ℕ :=
  if val ≥ 32 then MAX_BUCKETS else 2 ^ val - 1

/-- `hash_32` from `hash.c`: `hash = val * GOLDEN_RATIO_PRIME_32` in `u32`
arithmetic, then `hash >> (32 - bits)`. -/
def hash_32 (val bits : ℕ) : ℕ :=
  (val * GOLDEN_RATIO_PRIME_32 % 4294967296) >>> (32 - bits)

/-- `hash_data_t`: a key copy plus the opaque cache-node value pointer. -/
structure hash_data_t where
  key : Key
  cache_node_ptr : Option ℕ
  deriving DecidableEq, Repr

/-- A bucket-list node (`node_t` with `usr_data : hash_data_t`); `id` stands
for the node's address. -/
structure HashNode where
  id : ℕ
  usr_data : hash_data_t
  deriving DecidableEq, Repr

/-- `bucket_t`: entry count and the bucket list (`NULL` until first use). -/
structure bucket_t where
  list_count : ℤ
  list : Option (List HashNode)
  deriving DecidableEq, Repr

/-- `hash_t`.  The bucket array is represented sparsely as an association
list from bucket index to bucket; absent indices are the freshly
initialised `{0, NULL}` bucket produced by `hash_init`.  `next_id` models
the allocator producing fresh node addresses. -/
structure hash_t where
  bits : ℕ
  buckets_count : ℕ
  bucket_list : List (ℕ × bucket_t)
  entry_count : ℤ
  key_size : ℕ
  kcmp : Key → Key → ℤ
  k2num : Key → ℕ
  next_id : ℕ

/-- Read `hash->bucket_list[i]` (absent = freshly initialised bucket). -/
def bucketGet (bl : List (ℕ × bucket_t)) (i : ℕ) : bucket_t :=
  ((bl.find? (fun p => p.1 == i)).map (fun p => p.2)).getD ⟨0, none⟩

/-- Write `hash->bucket_list[i]`. -/
def bucketSet (bl : List (ℕ × bucket_t)) (i : ℕ) (b : bucket_t) :
    List (ℕ × bucket_t) :=
  (i, b) :: bl.filter (fun p => p.1 != i)

/-- `key_to_hash` from `hash.c`. -/
def key_to_hash (h : hash_t) (key : Key) : ℕ :=
  hash_32 (h.k2num key % 4294967296) h.bits

/-- `find_node` from `hash.c`: the bucket-traversal visitor returns the raw
result of `kcmp(key, stored_key)`.  (The `node == NULL` check cannot fire
in the model: bucket lists hold no null nodes.) -/
def find_node (kcmp : Key → Key → ℤ) (key : Key) (node : HashNode) : ℤ :=
  kcmp key node.usr_data.key

/-- `hash_init` from `hash.c`: computes `bits` and `buckets_count` and
allocates `buckets_count + 1` empty buckets. -/
def hash_init (max_entry : ℕ) (key_size : ℕ) (key_cmp : Key → Key → ℤ)
    (key_to_num : Key → ℕ) : hash_t :=
  { bits := get_bits max_entry
    buckets_count := get_bucket_number (get_bits max_entry)
    bucket_list := []
    entry_count := 0
    key_size := key_size
    kcmp := key_cmp
    k2num := key_to_num
    next_id := 0 }

/-- `hash_add` from `hash.c`: copies the key into a fresh node, appends it to
the target bucket's list (allocating the list on first use), bumps the
counters and returns the node. -/
def hash_add (h : hash_t) (key : Key) (cache_node : Option ℕ) :
    hash_t × Option ℕ :=
  let hash_code := key_to_hash h key
  if hash_code > h.buckets_count then (h, none)
  else
    let nid := h.next_id
    let node : HashNode := ⟨nid, ⟨key, cache_node⟩⟩
    let b := bucketGet h.bucket_list hash_code
    let lst := b.list.getD []
    let cnt := match b.list with
      | none => 0
      | some _ => b.list_count
    let b' : bucket_t := ⟨cnt + 1, some (list_push_back lst node)⟩
    ({ h with
        bucket_list := bucketSet h.bucket_list hash_code b'
        entry_count := h.entry_count + 1
        next_id := nid + 1 },
     some nid)

/-- `hash_del` from `hash.c`: removes the given node from the bucket of
`key`, frees it, and decrements the counters.  Returns `false` on the
`-1` error paths (null argument, invalid hash code, null bucket list). -/
def hash_del (h : hash_t) (key : Key) (hash_node : Option ℕ) :
    hash_t × Bool :=
  match hash_node with
  | none => (h, false)
  | some nid =>
    let hash_code := key_to_hash h key
    if hash_code > h.buckets_count then (h, false)
    else
      let b := bucketGet h.bucket_list hash_code
      match b.list with
      | none => (h, false)
      | some lst =>
        let b' : bucket_t :=
          ⟨b.list_count - 1, some (lst.eraseP (fun n => n.id == nid))⟩
        ({ h with
            bucket_list := bucketSet h.bucket_list hash_code b'
            entry_count := h.entry_count - 1 },
         true)

/-- `hash_find` from `hash.c`: hashes the key and walks the bucket list with
the `find_node` visitor. -/
def hash_find (h : hash_t) (key : Key) : Option HashNode :=
  let hash_code := key_to_hash h key
  if hash_code > h.buckets_count then none
  else
    match (bucketGet h.bucket_list hash_code).list with
    | none => none
    | some lst => list_foreach_with_usr_data lst (find_node h.kcmp key)

/-- `hash_get_count` from `hash.c`. -/
def hash_get_count (h : hash_t) : ℤ := h.entry_count

/-- Dereference a hash node by its address: locate it in its bucket.  This
models the direct pointer dereference `hash_node_ptr->usr_data` performed
by `libcache_delete_entry`. -/
def hashFindNodeById (h : hash_t) (nid : ℕ) : Option hash_data_t :=
  ((h.bucket_list.foldr (fun p acc => p.2.list.getD [] ++ acc) []).find?
    (fun n => n.id == nid)).map (fun n => n.usr_data)

/-! ## Slab pool (`libpool`)

The `libpool` implementation used by `libcache.c` (`pools_init`,
`pool_get_element`, `pool_free_element`, `pool_set_reserved_pointer`,
`pool_get_reserved_pointer`) is not among the sources; it is modelled from
the spec, §4.2: descriptors with a payload address and a reserved owner
pointer sit on a free list or a busy list; acquire moves free → busy and
returns the payload address; release moves busy → free and fails when the
address is not a busy payload; the owner pointer is written and read on
busy slots, and resolution of an address not held by a busy slot is
"unresolved". -/

/-- Modelled from the spec: a pool slot descriptor (payload address plus the
reserved owner pointer, initially null). -/
structure PoolSlot where
  payload : ℕ
  reserved : Option ℕ
  deriving DecidableEq, Repr

/-- Modelled from the spec: pool state, a free list and a busy list of slot
descriptors. -/
structure LPool where
  free_list : List PoolSlot
  busy_list : List PoolSlot
  deriving DecidableEq, Repr

/-- Modelled from the spec: `pools_init` lays out `count` equal-sized slots;
slot `i` gets (abstract) payload address `i`, all slots start free. -/
def pools_init (count : ℕ) : LPool :=
  ⟨(List.range count).map (fun i => ⟨i, none⟩), []⟩

/-- Modelled from the spec: `pool_get_element` pops a descriptor off the free
list, pushes it onto the busy list and returns its payload address;
returns `NULL` when the free list is empty. -/
def pool_get_element (p : LPool) : LPool × Option ℕ :=
  match p.free_list with
  | [] => (p, none)
  | s :: rest => (⟨rest, list_push_back p.busy_list s⟩, some s.payload)

/-- Modelled from the spec: `pool_free_element` moves the busy descriptor
holding the given payload address back to the free list; fails when the
address is not a busy payload. -/
def pool_free_element (p : LPool) (addr : ℕ) : LPool × Bool :=
  match p.busy_list.find? (fun s => s.payload == addr) with
  | none => (p, false)
  | some s =>
    (⟨list_push_back p.free_list s,
      p.busy_list.eraseP (fun t => t.payload == addr)⟩, true)

/-- Modelled from the spec: `pool_set_reserved_pointer` writes the owner
pointer of the busy slot holding the given payload address. -/
def pool_set_reserved_pointer (p : LPool) (addr : ℕ) (owner : ℕ) :
    LPool × Bool :=
  match p.busy_list.find? (fun s => s.payload == addr) with
  | none => (p, false)
  | some _ =>
    (⟨p.free_list,
      p.busy_list.map (fun t =>
        if t.payload == addr then { t with reserved := some owner } else t)⟩,
     true)

/-- Modelled from the spec: `pool_get_reserved_pointer` resolves a payload
address to the stored owner pointer; a null address or an address not
held by a busy slot is unresolved (`NULL`). -/
def pool_get_reserved_pointer (p : LPool) (addr : Option ℕ) : Option ℕ :=
  match addr with
  | none => none
  | some a =>
    match p.busy_list.find? (fun s => s.payload == a) with
    | none => none
    | some s => s.reserved

/-! ## Cache core (`src/libcache.c`) -/

/-- `libcache_ret_t`.  Modelled from the spec: `libcache.h` is not among the
sources; the spec's error taxonomy (§7) lists the result codes as
pairwise-distinct values, with `LIBCACHE_FAILURE` the argument-validation
code used by `libcache.c` outside the documented result sets. -/
inductive libcache_ret_t where
  | LIBCACHE_SUCCESS
  | LIBCACHE_FAILURE
  | LIBCACHE_NOT_FOUND
  | LIBCACHE_LOCKED
  | LIBCACHE_UNLOCKED
  deriving DecidableEq, Repr

export libcache_ret_t (LIBCACHE_SUCCESS LIBCACHE_FAILURE LIBCACHE_NOT_FOUND
  LIBCACHE_LOCKED LIBCACHE_UNLOCKED)

/-- `libcache_node_usr_data_t`: key buffer, hash-node back-pointer, pool
payload address, pin count (`uint32_t`). -/
structure libcache_node_usr_data_t where
  key : Key
  hash_node_ptr : Option ℕ
  pool_element_ptr : ℕ
  lock_counter : ℕ
  deriving DecidableEq, Repr

/-- The heap of allocated cache-slot objects: node address ↦ `usr_data`.
A node's address serves as its identity in the LRU list and in the hash
index's `cache_node_ptr` values. -/
abbrev NodeHeap := List (ℕ × libcache_node_usr_data_t)

/-- Dereference a cache node (`node->usr_data`). -/
def heapFind (heap : NodeHeap) (id : ℕ) : Option libcache_node_usr_data_t :=
  ((heap.find? (fun p => p.1 == id)).map (fun p => p.2))

/-- Dereference, defaulting on a dangling address (which in C would be
undefined behaviour; unreachable from the public API on intact states). -/
def heapGetD (heap : NodeHeap) (id : ℕ) : libcache_node_usr_data_t :=
  (heapFind heap id).getD ⟨0, none, 0, 0⟩

/-- In-place update through the node pointer. -/
def heapSet (heap : NodeHeap) (id : ℕ) (d : libcache_node_usr_data_t) :
    NodeHeap :=
  (id, d) :: heap.filter (fun p => p.1 != id)

/-- `free(node)`: remove the node object from the heap. -/
def heapErase (heap : NodeHeap) (id : ℕ) : NodeHeap :=
  heap.filter (fun p => p.1 != id)

/-- Pool-region memory: payload address ↦ stored bytes. -/
abbrev Mem := List (ℕ × Bytes)

/-- Read the bytes at a payload address. -/
def memRead (mem : Mem) (a : ℕ) : Bytes :=
  ((mem.find? (fun p => p.1 == a)).map (fun p => p.2)).getD []

/-- Write the bytes at a payload address. -/
def memWrite (mem : Mem) (a : ℕ) (v : Bytes) : Mem :=
  (a, v) :: mem.filter (fun p => p.1 != a)

/-- `memcpy(dst, src, n)` on byte buffers: the first `n` bytes come from
`src`, the rest of `dst` is unchanged. -/
def memcpyBytes (dst src : Bytes) (n : ℕ) : Bytes :=
  src.take n ++ dst.drop n

/-- `libcache_t` together with the objects it points to: the slot heap, the
LRU list (front first), the hash index, the pool, and the pool memory.
`next_node_id` models `malloc` returning fresh node addresses. -/
structure libcache_t where
  heap : NodeHeap
  lru : List ℕ
  hash : hash_t
  pool : LPool
  mem : Mem
  entry_size : ℕ
  key_size : ℕ
  max_entry_number : ℕ
  next_node_id : ℕ

/-- `libcache_create` from `libcache.c`: one pool of `max_entry_number`
slots, a hash index sized for `max_entry_number`, an empty LRU list.
(Allocation hooks always succeed in the model.) -/
def libcache_create (max_entry_number entry_size key_size : ℕ)
    (cmp_key : Key → Key → ℤ) (key_to_number : Key → ℕ) : libcache_t :=
  { heap := []
    lru := []
    hash := hash_init max_entry_number key_size cmp_key key_to_number
    pool := pools_init max_entry_number
    mem := []
    entry_size := entry_size
    key_size := key_size
    max_entry_number := max_entry_number
    next_node_id := 0 }

/-- The value returned by `libcache_lookup`: either the stable payload
address, or the caller's destination buffer with its post-call bytes. -/
inductive PtrRet where
  | payload (addr : ℕ)
  | buffer (content : Bytes)
  deriving DecidableEq, Repr

/-- `libcache_lookup` from `libcache.c`: null checks, hash find, resolve to
the cache node; with `dst_entry == NULL` increment the pin count and
return the payload address, otherwise copy `entry_size` bytes into the
destination buffer and return it; in both hit cases move the node to the
front of the LRU list. -/
def libcache_lookup (libcache : Option libcache_t) (key : Option Key)
    (dst_entry : Option Bytes) : Option libcache_t × Option PtrRet :=
  match libcache with
  | none => (none, none)
  | some s =>
    match key with
    | none => (some s, none)
    | some k =>
      match hash_find s.hash k with
      | none => (some s, none)
      | some hash_node =>
        match hash_node.usr_data.cache_node_ptr with
        | none => (some s, none)
        | some cid =>
          let d := heapGetD s.heap cid
          match dst_entry with
          | none =>
            (some { s with
                heap := heapSet s.heap cid
                  { d with lock_counter := (d.lock_counter + 1) % 4294967296 }
                lru := list_push_front (list_remove s.lru cid) cid },
             some (PtrRet.payload d.pool_element_ptr))
          | some buf =>
            (some { s with
                lru := list_push_front (list_remove s.lru cid) cid },
             some (PtrRet.buffer
               (memcpyBytes buf (memRead s.mem d.pool_element_ptr)
                 s.entry_size)))

/-- `libcache_get_unlock_node` from `libcache.c`: the reverse-scan visitor,
`lock_counter ? 1 : 0`. -/
def libcache_get_unlock_node (heap : NodeHeap) (nodeId : ℕ) : ℤ :=
  if (heapGetD heap nodeId).lock_counter ≠ 0 then 1 else 0

/-- `libcache_add` from `libcache.c`: duplicate check via `hash_find`; at
capacity, reverse-scan the LRU for an unpinned victim and evict it
(remove from LRU, `hash_del` by its own key, key buffer reset), else
allocate a fresh node and acquire a pool slot; populate the slot, push it
to the LRU front, install the pool back-pointer on fresh slots (with the
unwind path on failure), insert into the hash index, and pin when
`src_entry` is absent. -/
def libcache_add (libcache : Option libcache_t) (key : Option Key)
    (src_entry : Option Bytes) : Option libcache_t × Option ℕ :=
  match libcache with
  | none => (none, none)
  | some s =>
    match key with
    | none => (some s, none)
    | some k =>
      match hash_find s.hash k with
      | some _ => (some s, none)
      | none =>
        if s.max_entry_number ≤ s.lru.length then
          match list_reverse_foreach s.lru (libcache_get_unlock_node s.heap) with
          | none => (some s, none)
          | some vid =>
            let lru1 := list_remove s.lru vid
            let d0 := heapGetD s.heap vid
            let hd := hash_del s.hash d0.key d0.hash_node_ptr
            let mem1 := match src_entry with
              | some v => memWrite s.mem d0.pool_element_ptr
                  (memcpyBytes (memRead s.mem d0.pool_element_ptr) v
                    s.entry_size)
              | none => s.mem
            let ha := hash_add hd.1 k (some vid)
            let d2 : libcache_node_usr_data_t :=
              { key := k
                hash_node_ptr := ha.2
                pool_element_ptr := d0.pool_element_ptr
                lock_counter :=
                  match src_entry with
                  | none => (0 + 1) % 4294967296
                  | some _ => 0 }
            (some { s with
                lru := list_push_front lru1 vid
                heap := heapSet s.heap vid d2
                hash := ha.1
                mem := mem1 },
             some d0.pool_element_ptr)
        else
          let vid := s.next_node_id
          let pg := pool_get_element s.pool
          let elem := pg.2.getD 0
          let mem1 := match src_entry with
            | some v => memWrite s.mem elem
                (memcpyBytes (memRead s.mem elem) v s.entry_size)
            | none => s.mem
          let sr := pool_set_reserved_pointer pg.1 elem vid
          if sr.2 then
            let ha := hash_add s.hash k (some vid)
            let d2 : libcache_node_usr_data_t :=
              { key := k
                hash_node_ptr := ha.2
                pool_element_ptr := elem
                lock_counter :=
                  match src_entry with
                  | none => (0 + 1) % 4294967296
                  | some _ => 0 }
            (some { s with
                lru := list_push_front s.lru vid
                heap := heapSet s.heap vid d2
                hash := ha.1
                pool := sr.1
                mem := mem1
                next_node_id := vid + 1 },
             some elem)
          else
            let pf := pool_free_element sr.1 elem
            (some { s with
                pool := pf.1
                mem := mem1
                next_node_id := vid + 1 },
             none)

/-- `libcache_delete_by_key` from `libcache.c`: null checks; miss ⇒
`NOT_FOUND`; pinned ⇒ `LOCKED`; otherwise remove from hash, release the
pool slot, remove from the LRU, free the node. -/
def libcache_delete_by_key (libcache : Option libcache_t) (key : Option Key) :
    Option libcache_t × libcache_ret_t :=
  match libcache with
  | none => (none, LIBCACHE_FAILURE)
  | some s =>
    match key with
    | none => (some s, LIBCACHE_FAILURE)
    | some k =>
      match hash_find s.hash k with
      | none => (some s, LIBCACHE_NOT_FOUND)
      | some hash_node =>
        let cid := hash_node.usr_data.cache_node_ptr.getD 0
        let d := heapGetD s.heap cid
        if d.lock_counter > 0 then (some s, LIBCACHE_LOCKED)
        else
          let hd := hash_del s.hash k d.hash_node_ptr
          let pf := pool_free_element s.pool d.pool_element_ptr
          (some { s with
              hash := hd.1
              pool := pf.1
              lru := list_remove s.lru cid
              heap := heapErase s.heap cid },
           LIBCACHE_SUCCESS)

/-- `libcache_delete_entry` from `libcache.c`: null cache check only (no
null-entry check); resolve the entry through the pool's reserved pointer,
`NOT_FOUND` when unresolved, `LOCKED` when pinned, else delegate to
`libcache_delete_by_key` with the hash node's stored key. -/
def libcache_delete_entry (libcache : Option libcache_t) (entry : Option ℕ) :
    Option libcache_t × libcache_ret_t :=
  match libcache with
  | none => (none, LIBCACHE_FAILURE)
  | some s =>
    match pool_get_reserved_pointer s.pool entry with
    | none => (some s, LIBCACHE_NOT_FOUND)
    | some cid =>
      let d := heapGetD s.heap cid
      if d.lock_counter > 0 then (some s, LIBCACHE_LOCKED)
      else
        let hkey := ((hashFindNodeById s.hash (d.hash_node_ptr.getD 0)).getD
          ⟨0, none⟩).key
        libcache_delete_by_key (some s) (some hkey)

/-- `libcache_unlock_entry` from `libcache.c`: null checks; unresolved entry
⇒ `NOT_FOUND`; pin count zero ⇒ `UNLOCKED`; else decrement ⇒ `SUCCESS`. -/
def libcache_unlock_entry (libcache : Option libcache_t) (entry : Option ℕ) :
    Option libcache_t × libcache_ret_t :=
  match libcache with
  | none => (none, LIBCACHE_FAILURE)
  | some s =>
    match entry with
    | none => (some s, LIBCACHE_FAILURE)
    | some e =>
      match pool_get_reserved_pointer s.pool (some e) with
      | none => (some s, LIBCACHE_NOT_FOUND)
      | some cid =>
        let d := heapGetD s.heap cid
        if d.lock_counter = 0 then (some s, LIBCACHE_UNLOCKED)
        else
          (some { s with
              heap := heapSet s.heap cid
                { d with lock_counter := d.lock_counter - 1 } },
           LIBCACHE_SUCCESS)

/-- `libcache_get_max_entry_number` from `libcache.c` (`-1` models returning
the `LIBCACHE_FAILURE` code through the numeric return type). -/
def libcache_get_max_entry_number (libcache : Option libcache_t) : ℤ :=
  match libcache with
  | none => -1
  | some s => (s.max_entry_number : ℤ)

/-- `libcache_get_entry_number` from `libcache.c`: delegates to
`hash_get_count`. -/
def libcache_get_entry_number (libcache : Option libcache_t) : ℤ :=
  match libcache with
  | none => -1
  | some s => hash_get_count s.hash

/-- The `while (list_pop_front(...))` loop of `libcache_clean`: for each
popped node, release its pool slot (aborting with `LIBCACHE_FAILURE` if
that fails) and free the node object.  The hash index is not touched
(the source carries a `TODO: hash_clean` comment instead). -/
def clean_aux : List ℕ → NodeHeap → LPool → List ℕ × NodeHeap × LPool × Bool
  | [], heap, pool => ([], heap, pool, true)
  | cid :: rest, heap, pool =>
    let d := heapGetD heap cid
    let pf := pool_free_element pool d.pool_element_ptr
    if pf.2 then clean_aux rest (heapErase heap cid) pf.1
    else (rest, heap, pf.1, false)

/-- `libcache_clean` from `libcache.c`: pops every LRU node, releasing pool
slots and freeing node objects; returns `LIBCACHE_SUCCESS` at the end
(`LIBCACHE_FAILURE` if a pool release fails).  No pin-count check and no
hash-index cleanup are performed. -/
def libcache_clean (libcache : Option libcache_t) :
    Option libcache_t × libcache_ret_t :=
  match libcache with
  | none => (none, LIBCACHE_FAILURE)
  | some s =>
    let r := clean_aux s.lru s.heap s.pool
    (some { s with lru := r.1, heap := r.2.1, pool := r.2.2.1 },
     if r.2.2.2 then LIBCACHE_SUCCESS else LIBCACHE_FAILURE)

/-! ## The file-scope pool (`src/pool.c`)

`pool.c` is the older, file-scope pool variant; its `node_t` is the one
declared in `include/list.h`, with `key` and `entry` fields.  It is kept in
its own namespace because its operation names collide with the `libpool`
layer used by `libcache.c`. -/

namespace OldPool

/-- `node_t` from `include/list.h`: key pointer and entry (payload) pointer
(the list linkage is carried by the surrounding `List`). -/
structure PNode where
  key : Option ℕ
  entry : ℕ
  deriving DecidableEq, Repr

/-- The lists of `element_pool_t` relevant to `pool_get_element`.  The busy
list holds `Option PNode` because `pool_get_element` pushes the literal
`NULL` pointer onto it on the empty-free-list path. -/
structure element_pool_t where
  free_list : List PNode
  busy_list : List (Option PNode)
  deriving DecidableEq, Repr

/-- `pool_get_element` from `pool.c`, verbatim: pop the back of the free
list; `if (node == NULL) list_push_back(busy_list, node);`; return
`node`. -/
def pool_get_element (p : element_pool_t) : element_pool_t × Option PNode :=
  let popped := list_pop_back p.free_list
  match popped.2 with
  | none =>
    ({ free_list := popped.1, busy_list := list_push_back p.busy_list none },
     none)
  | some n => ({ free_list := popped.1, busy_list := p.busy_list }, some n)

end OldPool

/-! ## Key helpers used by the concrete witnesses -/

/-- A total-order comparator on `ℕ` keys (the shape `compare_key` must
have per the spec, §6). -/
def natCmp (a b : ℕ) : ℤ := if a = b then 0 else if a < b then -1 else 1

/-- The identity key-to-integer projection. -/
def natId (a : ℕ) : ℕ := a

/-! ## Traversal lemmas -/

section TraversalLemmas

variable {α : Type} (f : α → ℤ)

theorem list_foreach_all_pos {l : List α} (h : ∀ x ∈ l, 0 < f x) :
    list_foreach_with_usr_data l f = none := by
  induction l with
  | nil => rfl
  | cons x xs ih =>
    have hx := h x (by simp)
    rw [list_foreach_with_usr_data]
    rw [if_neg (by omega), if_neg (by omega)]
    exact ih (fun y hy => h y (by simp [hy]))

theorem list_foreach_append_pos {a : List α} (b : List α)
    (h : ∀ x ∈ a, 0 < f x) :
    list_foreach_with_usr_data (a ++ b) f = list_foreach_with_usr_data b f := by
  induction a with
  | nil => rfl
  | cons x xs ih =>
    have hx := h x (by simp)
    rw [List.cons_append, list_foreach_with_usr_data]
    rw [if_neg (by omega), if_neg (by omega)]
    exact ih (fun y hy => h y (by simp [hy]))

theorem list_foreach_stops_at_zero {l : List α} {v : α}
    (h : list_foreach_with_usr_data l f = some v) : f v = 0 ∧ v ∈ l := by
  induction l with
  | nil => simp [list_foreach_with_usr_data] at h
  | cons x xs ih =>
    rw [list_foreach_with_usr_data] at h
    by_cases h0 : f x = 0
    · rw [if_pos h0] at h
      obtain rfl : x = v := by simpa using h
      exact ⟨h0, by simp⟩
    · rw [if_neg h0] at h
      by_cases hneg : f x < 0
      · simp [if_pos hneg] at h
      · rw [if_neg hneg] at h
        obtain ⟨hz, hm⟩ := ih h
        exact ⟨hz, by simp [hm]⟩

theorem list_reverse_foreach_all_pos {l : List α} (h : ∀ x ∈ l, 0 < f x) :
    list_reverse_foreach l f = none := by
  rw [list_reverse_foreach]
  exact list_foreach_all_pos f (fun x hx => h x (List.mem_reverse.mp hx))

theorem list_reverse_foreach_last_zero {l1 l2 : List α} {v : α}
    (hv : f v = 0) (h2 : ∀ x ∈ l2, 0 < f x) :
    list_reverse_foreach (l1 ++ v :: l2) f = some v := by
  rw [list_reverse_foreach, List.reverse_append, List.reverse_cons,
    List.append_assoc]
  rw [list_foreach_append_pos f _ (fun x hx => h2 x (List.mem_reverse.mp hx))]
  rw [List.singleton_append, list_foreach_with_usr_data, if_pos hv]

theorem list_reverse_foreach_stops_at_zero {l : List α} {v : α}
    (h : list_reverse_foreach l f = some v) : f v = 0 ∧ v ∈ l := by
  rw [list_reverse_foreach] at h
  obtain ⟨hz, hm⟩ := list_foreach_stops_at_zero f h
  exact ⟨hz, List.mem_reverse.mp hm⟩

end TraversalLemmas

/-! ## Association-map lemmas -/

theorem heapFind_cons (i : ℕ) (d : libcache_node_usr_data_t) (t : NodeHeap)
    (j : ℕ) :
    heapFind ((i, d) :: t) j = if i = j then some d else heapFind t j := by
  by_cases h : i = j <;> simp [heapFind, List.find?_cons, h]

theorem heapFind_filter_ne (h : NodeHeap) (i j : ℕ) (hne : i ≠ j) :
    heapFind (h.filter (fun p => p.1 != i)) j = heapFind h j := by
  induction h with
  | nil => rfl
  | cons a t ih =>
    by_cases ha : a.1 = i
    · rw [List.filter_cons_of_neg (by simp [ha])]
      rw [ih, show a = (a.1, a.2) from rfl, heapFind_cons, if_neg (ha ▸ hne)]
    · rw [List.filter_cons_of_pos (by simp [ha])]
      rw [show a = (a.1, a.2) from rfl, heapFind_cons, heapFind_cons, ih]

theorem heapFind_set_self (h : NodeHeap) (i : ℕ)
    (d : libcache_node_usr_data_t) : heapFind (heapSet h i d) i = some d := by
  rw [heapSet, heapFind_cons, if_pos rfl]

theorem heapFind_set_ne (h : NodeHeap) (i j : ℕ)
    (d : libcache_node_usr_data_t) (hne : i ≠ j) :
    heapFind (heapSet h i d) j = heapFind h j := by
  rw [heapSet, heapFind_cons, if_neg hne, heapFind_filter_ne h i j hne]

theorem heapFind_erase_ne (h : NodeHeap) (i j : ℕ) (hne : i ≠ j) :
    heapFind (heapErase h i) j = heapFind h j :=
  heapFind_filter_ne h i j hne

theorem heapGetD_eq {h : NodeHeap} {i : ℕ} {d : libcache_node_usr_data_t}
    (hf : heapFind h i = some d) : heapGetD h i = d := by
  rw [heapGetD, hf]; rfl

theorem memRead_cons (a : ℕ) (v : Bytes) (t : Mem) (b : ℕ) :
    memRead ((a, v) :: t) b = if a = b then v else memRead t b := by
  by_cases h : a = b <;> simp [memRead, List.find?_cons, h]

theorem memRead_write_ne (m : Mem) (a b : ℕ) (v : Bytes) (hne : a ≠ b) :
    memRead (memWrite m a v) b = memRead m b := by
  rw [memWrite, memRead_cons, if_neg hne]
  induction m with
  | nil => rfl
  | cons p t ih =>
    by_cases hp : p.1 = a
    · rw [List.filter_cons_of_neg (by simp [hp])]
      rw [ih, show p = (p.1, p.2) from rfl, memRead_cons, if_neg (hp ▸ hne)]
    · rw [List.filter_cons_of_pos (by simp [hp])]
      rw [show p = (p.1, p.2) from rfl, memRead_cons, memRead_cons, ih]

/-! ## Bit-width arithmetic (`get_bits`, claim C7) -/

theorem get_bits_go_eq : ∀ (fuel val count : ℕ), val ≠ 0 → val < 2 ^ fuel →
    get_bits_go fuel val count = count + Nat.log 2 val := by
  intro fuel
  induction fuel with
  | zero =>
    intro val count h1 h2
    simp at h2
    omega
  | succ n ih =>
    intro val count h1 h2
    rw [get_bits_go]
    by_cases hv : val / 2 = 0
    · rw [if_pos hv]
      have hval : val = 1 := by omega
      subst hval
      simp
    · rw [if_neg hv]
      have hpow : 2 ^ (n + 1) = 2 ^ n * 2 := by rw [Nat.pow_succ]
      have h2' : val / 2 < 2 ^ n := by omega
      rw [ih (val / 2) (count + 1) hv h2']
      have hval2 : 2 ≤ val := by omega
      have hlog := Nat.log_div_base 2 val
      have hpos : 0 < Nat.log 2 val := Nat.log_pos (by norm_num) hval2
      omega

theorem get_bits_eq_log (val : ℕ) (h1 : 1 ≤ val) (h2 : val < 4294967296) :
    get_bits val = Nat.log 2 val + 1 := by
  have hp : (2 : ℕ) ^ 32 = 4294967296 := by norm_num
  rw [get_bits, Nat.mod_eq_of_lt h2,
    get_bits_go_eq 32 val 1 (by omega) (by omega)]
  omega

/-- C7, counterexample at capacity 0.  The claim quantifies over every
capacity value; at capacity 0 the smallest `b` with `2^b - 1 ≥ 0` is 0,
but `get_bits 0 = 1`, and the bucket index actually computed for a key
with integer projection 1 is `1`, not the `(1 · 0x9E370001 mod 2^32) >> 32
= 0` demanded by the claimed formula with `bits = 0`. -/
theorem get_bits_capacity_zero_counterexample :
    (hash_init 0 4 natCmp natId).bits = 1 ∧
    2 ^ 0 - 1 ≥ 0 ∧ ¬ ((hash_init 0 4 natCmp natId).bits ≤ 0) ∧
    key_to_hash (hash_init 0 4 natCmp natId) 1 = 1 ∧
    (natId 1 * GOLDEN_RATIO_PRIME_32 % 4294967296) >>> (32 - 0) = 0 := by
  refine ⟨rfl, by omega, by decide, rfl, by decide⟩

/-- C7 (amended to capacities ≥ 1, which also stay below 2^32 as `u32`
values): for `hash_init capacity …`, the stored bit width is the smallest
`b` with `2^b − 1 ≥ capacity`; it is 32 for capacities ≥ 2^31; the bucket
array has `buckets_count + 1 = 2^bits` usable buckets; and for every key
the computed bucket index equals
`(key_to_integer(key) · 0x9E370001 mod 2^32) >> (32 − bits)` and is
always in range. -/
theorem hash_index_formula_amended (cap ks : ℕ) (cmp : Key → Key → ℤ)
    (k2n : Key → ℕ) (hcap1 : 1 ≤ cap) (hcap2 : cap < 4294967296) :
    (2 ^ (hash_init cap ks cmp k2n).bits - 1 ≥ cap
      ∧ (∀ b : ℕ, 2 ^ b - 1 ≥ cap → (hash_init cap ks cmp k2n).bits ≤ b))
    ∧ (2 ^ 31 ≤ cap → (hash_init cap ks cmp k2n).bits = 32)
    ∧ (hash_init cap ks cmp k2n).buckets_count + 1
        = 2 ^ (hash_init cap ks cmp k2n).bits
    ∧ (∀ k : Key,
        key_to_hash (hash_init cap ks cmp k2n) k
          = (k2n k * GOLDEN_RATIO_PRIME_32 % 4294967296)
              >>> (32 - (hash_init cap ks cmp k2n).bits)
        ∧ key_to_hash (hash_init cap ks cmp k2n) k
            ≤ (hash_init cap ks cmp k2n).buckets_count) := by
  have hb : (hash_init cap ks cmp k2n).bits = Nat.log 2 cap + 1 := by
    show get_bits cap = Nat.log 2 cap + 1
    exact get_bits_eq_log cap hcap1 hcap2
  have hp32 : (2 : ℕ) ^ 32 = 4294967296 := by norm_num
  have hlog_lt : Nat.log 2 cap < 32 :=
    Nat.log_lt_of_lt_pow (by omega) (by omega)
  have hbits_le : (hash_init cap ks cmp k2n).bits ≤ 32 := by omega
  have hbc : (hash_init cap ks cmp k2n).buckets_count
      = 2 ^ (hash_init cap ks cmp k2n).bits - 1 := by
    show get_bucket_number (get_bits cap)
      = 2 ^ (hash_init cap ks cmp k2n).bits - 1
    have hgb : get_bits cap = (hash_init cap ks cmp k2n).bits := rfl
    rw [hgb, get_bucket_number]
    rcases Nat.lt_or_ge (hash_init cap ks cmp k2n).bits 32 with hlt | hge
    · rw [if_neg (by omega)]
    · have h32 : (hash_init cap ks cmp k2n).bits = 32 := by omega
      rw [if_pos (by omega), h32, hp32]
      rfl
  refine ⟨⟨?_, ?_⟩, ?_, ?_, ?_⟩
  · rw [hb]
    have := Nat.lt_pow_succ_log_self (b := 2) (by norm_num) cap
    have h1 : 1 ≤ 2 ^ (Nat.log 2 cap + 1) := Nat.one_le_two_pow
    omega
  · intro b hge
    have h1 : 1 ≤ 2 ^ b := Nat.one_le_two_pow
    have hlt : cap < 2 ^ b := by omega
    have := Nat.log_lt_of_lt_pow (show cap ≠ 0 by omega) hlt
    omega
  · intro hclamp
    have h31 : 31 ≤ Nat.log 2 cap :=
      Nat.le_log_of_pow_le (by norm_num) hclamp
    omega
  · have h1 : 1 ≤ 2 ^ (hash_init cap ks cmp k2n).bits := Nat.one_le_two_pow
    omega
  · intro k
    constructor
    · rw [key_to_hash, hash_32]
      have hk : (hash_init cap ks cmp k2n).k2num = k2n := rfl
      rw [hk, Nat.mod_mul_mod]
    · rw [hbc]
      have hx : key_to_hash (hash_init cap ks cmp k2n) k
          < 2 ^ (hash_init cap ks cmp k2n).bits := by
        rw [key_to_hash, hash_32, Nat.shiftRight_eq_div_pow]
        have hmod : (k2n k % 4294967296) * GOLDEN_RATIO_PRIME_32 % 4294967296
            < 4294967296 := Nat.mod_lt _ (by norm_num)
        rw [Nat.div_lt_iff_lt_mul (pow_pos (by norm_num) _)]
        calc (k2n k % 4294967296) * GOLDEN_RATIO_PRIME_32 % 4294967296
            < 4294967296 := hmod
          _ = 2 ^ 32 := hp32.symm
          _ = 2 ^ ((hash_init cap ks cmp k2n).bits
                + (32 - (hash_init cap ks cmp k2n).bits)) := by
              congr 1
              omega
          _ = 2 ^ (hash_init cap ks cmp k2n).bits
                * 2 ^ (32 - (hash_init cap ks cmp k2n).bits) := by
              rw [Nat.pow_add]
      omega

/-- Witness for `hash_index_formula_amended` at capacity 5 and key 9. -/
theorem hash_index_formula_amended_witness :
    2 ^ (hash_init 5 4 natCmp natId).bits - 1 ≥ 5 ∧
    key_to_hash (hash_init 5 4 natCmp natId) 9
      ≤ (hash_init 5 4 natCmp natId).buckets_count := by
  have h := hash_index_formula_amended 5 4 natCmp natId (by omega) (by omega)
  exact ⟨h.1.1, (h.2.2.2 9).2⟩

/-! ## `hash_find` traversal (claim C8) -/

/-- A concrete table (capacity 1, `u32` comparator, identity projection)
holding keys 3 and 1, which share bucket 1; the bucket list is
`[node(3), node(1)]`. -/
def hashFindCe : hash_t :=
  (hash_add (hash_add (hash_init 1 4 natCmp natId) 3 none).1 1 none).1

/-- C8, counterexample: searching key 1 in `hashFindCe` returns nothing even
though the bucket holds a node whose key compares equal — the traversal
aborts at the leading node with key 3 because `cmp(1, 3) < 0`, so `find`
does not walk the whole bucket list. -/
theorem hash_find_abort_counterexample :
    hash_find hashFindCe 1 = none ∧
    (((bucketGet hashFindCe.bucket_list
          (key_to_hash hashFindCe 1)).list.getD []).map
        (fun n => natCmp 1 n.usr_data.key)).contains 0 = true := by
  refine ⟨by decide, by decide⟩

/-- C8 (amended): `find` walks the bucket list of the key and returns the
first stored node whose key compares equal, provided every earlier node
in the bucket compares positive; if instead the first non-positive
comparison is negative, the traversal aborts and `find` returns nothing
even when a later node compares equal. -/
theorem hash_find_first_equal_amended (h : hash_t) (k : Key)
    (l1 l2 : List HashNode) (n : HashNode)
    (hin : ¬ key_to_hash h k > h.buckets_count)
    (hb : (bucketGet h.bucket_list (key_to_hash h k)).list
      = some (l1 ++ n :: l2))
    (hpos : ∀ m ∈ l1, 0 < h.kcmp k m.usr_data.key) :
    (h.kcmp k n.usr_data.key = 0 → hash_find h k = some n)
    ∧ (h.kcmp k n.usr_data.key < 0 → hash_find h k = none) := by
  have hstep : hash_find h k
      = list_foreach_with_usr_data (l1 ++ n :: l2) (find_node h.kcmp k) := by
    rw [hash_find]
    simp only [if_neg hin, hb]
  rw [hstep, list_foreach_append_pos (find_node h.kcmp k) _
    (fun m hm => hpos m hm)]
  constructor
  · intro h0
    rw [list_foreach_with_usr_data]
    simp only [find_node]
    rw [if_pos h0]
  · intro hneg
    rw [list_foreach_with_usr_data]
    simp only [find_node]
    rw [if_neg (by omega), if_pos hneg]

/-- Witness for `hash_find_first_equal_amended`: capacity 1, keys 0 and 2
share bucket 0; searching key 2 walks past the node with key 0
(`cmp(2,0) > 0`) and returns the node with key 2. -/
theorem hash_find_first_equal_amended_witness :
    hash_find (hash_add (hash_add (hash_init 1 4 natCmp natId) 0 none).1
        2 none).1 2
      = some ⟨1, ⟨2, none⟩⟩ := by
  have h := hash_find_first_equal_amended
    (hash_add (hash_add (hash_init 1 4 natCmp natId) 0 none).1 2 none).1 2
    [⟨0, ⟨0, none⟩⟩] [] ⟨1, ⟨2, none⟩⟩ (by decide) (by decide)
    (by decide)
  exact h.1 (by decide)

/-! ## `pool.c` acquire bug (claim C9) -/

/-- C9: `pool_get_element` in `pool.c` pops a descriptor off the free list
but, because its null check is inverted (`if (node == NULL)
list_push_back(busy_list, node);`), it never moves the popped descriptor
to the busy list — the busy list stays empty after a successful acquire,
and on an empty free list it is the null pointer that gets pushed onto
the busy list.  The function also returns the descriptor itself rather
than its payload address. -/
theorem pool_get_element_busy_list_bug :
    OldPool.pool_get_element ⟨[⟨none, 7⟩], []⟩
      = (⟨[], []⟩, some ⟨none, 7⟩) ∧
    OldPool.pool_get_element ⟨[], []⟩ = (⟨[], [none]⟩, none) := by
  refine ⟨by decide, by decide⟩

/-! ## `libcache_clean` (claims C1 and C5) -/

/-- A capacity-2 cache holding the single key 1 added with `src = NULL`,
i.e. pinned with pin-count 1. -/
def cleanPinnedCache : libcache_t :=
  ((libcache_add (some (libcache_create 2 4 4 natCmp natId)) (some 1)
      none).1).getD (libcache_create 2 4 4 natCmp natId)

/-- C1: `libcache_clean` performs no pin-count check.  On a cache whose
single resident entry is pinned (pin-count 1) it still returns
`LIBCACHE_SUCCESS`, pops the entry off the LRU list, and frees the slot
object, instead of aborting with `LIBCACHE_LOCKED`. -/
theorem libcache_clean_ignores_pins :
    (heapGetD cleanPinnedCache.heap 0).lock_counter = 1 ∧
    0 ∈ cleanPinnedCache.lru ∧
    (libcache_clean (some cleanPinnedCache)).2 = LIBCACHE_SUCCESS ∧
    ((libcache_clean (some cleanPinnedCache)).1.getD cleanPinnedCache).lru
      = [] ∧
    ((libcache_clean (some cleanPinnedCache)).1.getD cleanPinnedCache).heap
      = [] := by
  refine ⟨by decide, by decide, by decide, by decide, by decide⟩

/-- A capacity-4 cache holding the single unpinned key 1 with payload
`[9,9,9,9]`. -/
def cleanResidentCache : libcache_t :=
  ((libcache_add (some (libcache_create 4 4 4 natCmp natId)) (some 1)
      (some [9, 9, 9, 9])).1).getD (libcache_create 4 4 4 natCmp natId)

/-- C5: `libcache_clean` never removes hash entries (the source has a
`TODO: hash_clean` comment in their place).  After `clean` returns
`LIBCACHE_SUCCESS` on a cache holding one resident entry, the LRU list is
empty but the hash index still holds the entry, so `size()`
(`libcache_get_entry_number`) returns 1 rather than 0 and `hash_find`
still locates the previously resident key. -/
theorem libcache_clean_leaves_hash_entries :
    (libcache_clean (some cleanResidentCache)).2 = LIBCACHE_SUCCESS ∧
    ((libcache_clean (some cleanResidentCache)).1.getD
        cleanResidentCache).lru = [] ∧
    libcache_get_entry_number (libcache_clean (some cleanResidentCache)).1
      = 1 ∧
    hash_find ((libcache_clean (some cleanResidentCache)).1.getD
        cleanResidentCache).hash 1 ≠ none := by
  refine ⟨by decide, by decide, by decide, by decide⟩

/-! ## Null-argument handling (claim C10) -/

/-- An empty capacity-2 cache used to exhibit the null-entry behaviour of
`libcache_delete_entry`. -/
def nullArgCache : libcache_t := libcache_create 2 4 4 natCmp natId

/-- C10, counterexample: `libcache_delete_entry` performs no null check on
its entry argument; a null entry falls through to the pool resolver,
which reports it unresolved, so the call returns `LIBCACHE_NOT_FOUND` —
not the `LIBCACHE_FAILURE` the claim asserts for all three delete/unlock
operations on null arguments. -/
theorem delete_entry_null_returns_not_found :
    libcache_delete_entry (some nullArgCache) none
      = (some nullArgCache, LIBCACHE_NOT_FOUND) ∧
    LIBCACHE_NOT_FOUND ≠ LIBCACHE_FAILURE := by
  exact ⟨rfl, by decide⟩

/-- C10 (amended): on a null cache or null key, `lookup` and `add` return
nothing; `delete_by_key` and `unlock` return the distinct code
`LIBCACHE_FAILURE` on a null cache or null key/entry; `delete_by_entry`
returns `LIBCACHE_FAILURE` on a null cache but — having no null-entry
check — returns `LIBCACHE_NOT_FOUND` on a null entry pointer, the pool
resolver reporting it unresolved.  No cache state is modified in any of
these cases, and `LIBCACHE_FAILURE` lies outside the documented result
sets `{Success, NotFound, Locked}` and `{Success, NotFound,
AlreadyUnlocked}`. -/
theorem null_argument_handling_amended :
    (∀ (k : Option Key) (d : Option Bytes),
       libcache_lookup none k d = (none, none))
    ∧ (∀ (s : libcache_t) (d : Option Bytes),
       libcache_lookup (some s) none d = (some s, none))
    ∧ (∀ (k : Option Key) (v : Option Bytes),
       libcache_add none k v = (none, none))
    ∧ (∀ (s : libcache_t) (v : Option Bytes),
       libcache_add (some s) none v = (some s, none))
    ∧ (∀ k : Option Key,
       libcache_delete_by_key none k = (none, LIBCACHE_FAILURE))
    ∧ (∀ s : libcache_t,
       libcache_delete_by_key (some s) none = (some s, LIBCACHE_FAILURE))
    ∧ (∀ e : Option ℕ,
       libcache_unlock_entry none e = (none, LIBCACHE_FAILURE))
    ∧ (∀ s : libcache_t,
       libcache_unlock_entry (some s) none = (some s, LIBCACHE_FAILURE))
    ∧ (∀ e : Option ℕ,
       libcache_delete_entry none e = (none, LIBCACHE_FAILURE))
    ∧ (∀ s : libcache_t,
       libcache_delete_entry (some s) none = (some s, LIBCACHE_NOT_FOUND))
    ∧ LIBCACHE_FAILURE ≠ LIBCACHE_SUCCESS
    ∧ LIBCACHE_FAILURE ≠ LIBCACHE_NOT_FOUND
    ∧ LIBCACHE_FAILURE ≠ LIBCACHE_LOCKED
    ∧ LIBCACHE_FAILURE ≠ LIBCACHE_UNLOCKED := by
  refine ⟨fun k d => rfl, fun s d => rfl, fun k v => rfl, fun s v => rfl,
    fun k => rfl, fun s => rfl, fun e => rfl, fun s => rfl, fun e => rfl,
    fun s => rfl, by decide, by decide, by decide, by decide⟩

/-! ## `libcache_lookup` (claim C4) -/

/-- C4: `lookup` on a miss returns nothing; on a hit it moves the resolved
node to the LRU front; with a destination buffer it copies `entry_size`
payload bytes into the buffer and returns the buffer, leaving the pin
count untouched; without one it increments the pin count by exactly one
(stated below the 2^32 wrap of the `uint32_t` counter) and returns the
stable payload address. -/
theorem libcache_lookup_spec :
    (∀ (s : libcache_t) (k : Key) (dst : Option Bytes),
        hash_find s.hash k = none →
        libcache_lookup (some s) (some k) dst = (some s, none))
    ∧ (∀ (s : libcache_t) (k : Key) (hn : HashNode) (cid : ℕ)
        (d : libcache_node_usr_data_t) (buf : Bytes),
        hash_find s.hash k = some hn →
        hn.usr_data.cache_node_ptr = some cid →
        heapFind s.heap cid = some d →
        libcache_lookup (some s) (some k) (some buf) =
          (some { s with
              lru := list_push_front (list_remove s.lru cid) cid },
           some (PtrRet.buffer
             (memcpyBytes buf (memRead s.mem d.pool_element_ptr)
               s.entry_size))))
    ∧ (∀ (s : libcache_t) (k : Key) (hn : HashNode) (cid : ℕ)
        (d : libcache_node_usr_data_t),
        hash_find s.hash k = some hn →
        hn.usr_data.cache_node_ptr = some cid →
        heapFind s.heap cid = some d →
        d.lock_counter + 1 < 4294967296 →
        libcache_lookup (some s) (some k) none =
          (some { s with
              heap := heapSet s.heap cid
                { d with lock_counter := d.lock_counter + 1 }
              lru := list_push_front (list_remove s.lru cid) cid },
           some (PtrRet.payload d.pool_element_ptr))) := by
  refine ⟨?_, ?_, ?_⟩
  · intro s k dst hmiss
    simp only [libcache_lookup, hmiss]
  · intro s k hn cid d buf hfind hptr hheap
    simp only [libcache_lookup, hfind, hptr, heapGetD_eq hheap]
  · intro s k hn cid d hfind hptr hheap hlt
    simp only [libcache_lookup, hfind, hptr, heapGetD_eq hheap,
      Nat.mod_eq_of_lt hlt]

/-- Witness for `libcache_lookup_spec` on `cleanResidentCache` (key 1
resident, unpinned, payload `[9,9,9,9]`): a miss on key 2, a copying
hit on key 1, and a pinning hit on key 1. -/
theorem libcache_lookup_spec_witness :
    libcache_lookup (some cleanResidentCache) (some 2) none
      = (some cleanResidentCache, none) ∧
    libcache_lookup (some cleanResidentCache) (some 1) (some [0, 0, 0, 0])
      = (some { cleanResidentCache with
            lru := list_push_front (list_remove cleanResidentCache.lru 0) 0 },
         some (PtrRet.buffer
           (memcpyBytes [0, 0, 0, 0] (memRead cleanResidentCache.mem 0)
             cleanResidentCache.entry_size))) ∧
    libcache_lookup (some cleanResidentCache) (some 1) none
      = (some { cleanResidentCache with
            heap := heapSet cleanResidentCache.heap 0 ⟨1, some 0, 0, 1⟩
            lru := list_push_front (list_remove cleanResidentCache.lru 0) 0 },
         some (PtrRet.payload 0)) := by
  refine ⟨libcache_lookup_spec.1 cleanResidentCache 2 none (by decide),
    libcache_lookup_spec.2.1 cleanResidentCache 1 ⟨0, ⟨1, some 0⟩⟩ 0
      ⟨1, some 0, 0, 0⟩ [0, 0, 0, 0] (by decide) rfl (by decide),
    libcache_lookup_spec.2.2 cleanResidentCache 1 ⟨0, ⟨1, some 0⟩⟩ 0
      ⟨1, some 0, 0, 0⟩ (by decide) rfl (by decide) (by decide)⟩

/-! ## LRU promotion (claim C6) -/

/-- C6: every `lookup` that returns an entry has moved the resolved node to
the front of the LRU list before returning, and every `add` that returns
an entry pointer leaves the inserted slot — carrying the added key — at
the front of the LRU list. -/
theorem lru_front_most_recent :
    (∀ (s : libcache_t) (k : Key) (dst : Option Bytes) (s' : libcache_t)
        (r : PtrRet),
        libcache_lookup (some s) (some k) dst = (some s', some r) →
        ∃ hn cid, hash_find s.hash k = some hn
          ∧ hn.usr_data.cache_node_ptr = some cid
          ∧ s'.lru = list_push_front (list_remove s.lru cid) cid)
    ∧ (∀ (s : libcache_t) (k : Key) (src : Option Bytes) (s' : libcache_t)
        (p : ℕ),
        libcache_add (some s) (some k) src = (some s', some p) →
        ∃ nid, s'.lru.head? = some nid
          ∧ (heapGetD s'.heap nid).key = k) := by
  constructor
  · intro s k dst s' r h
    simp only [libcache_lookup] at h
    cases hf : hash_find s.hash k with
    | none => rw [hf] at h; simp at h
    | some hn =>
      rw [hf] at h
      dsimp only at h
      cases hc : hn.usr_data.cache_node_ptr with
      | none => rw [hc] at h; simp at h
      | some cid =>
        rw [hc] at h
        dsimp only at h
        refine ⟨hn, cid, rfl, hc, ?_⟩
        cases dst with
        | none =>
          simp only [Prod.mk.injEq, Option.some.injEq] at h
          rw [← h.1]
        | some buf =>
          simp only [Prod.mk.injEq, Option.some.injEq] at h
          rw [← h.1]
  · intro s k src s' p h
    simp only [libcache_add] at h
    cases hf : hash_find s.hash k with
    | some hn => rw [hf] at h; simp at h
    | none =>
      rw [hf] at h
      dsimp only at h
      by_cases hfull : s.max_entry_number ≤ s.lru.length
      · rw [if_pos hfull] at h
        cases hscan : list_reverse_foreach s.lru
            (libcache_get_unlock_node s.heap) with
        | none => rw [hscan] at h; simp at h
        | some vid =>
          rw [hscan] at h
          dsimp only at h
          simp only [Prod.mk.injEq, Option.some.injEq] at h
          refine ⟨vid, ?_, ?_⟩
          · rw [← h.1]; rfl
          · rw [← h.1]
            exact congrArg (fun d => d.key)
              (heapGetD_eq (heapFind_set_self s.heap vid _))
      · rw [if_neg hfull] at h
        by_cases hsr : (pool_set_reserved_pointer
            (pool_get_element s.pool).1
            ((pool_get_element s.pool).2.getD 0) s.next_node_id).2 = true
        · rw [if_pos hsr] at h
          simp only [Prod.mk.injEq, Option.some.injEq] at h
          refine ⟨s.next_node_id, ?_, ?_⟩
          · rw [← h.1]; rfl
          · rw [← h.1]
            exact congrArg (fun d => d.key)
              (heapGetD_eq (heapFind_set_self s.heap s.next_node_id _))
        · rw [if_neg hsr] at h
          simp at h

/-- A capacity-2 cache holding key 1 (payload `[1,1,1,1]`). -/
def lruCacheA : libcache_t :=
  ((libcache_add (some (libcache_create 2 4 4 natCmp natId)) (some 1)
      (some [1, 1, 1, 1])).1).getD (libcache_create 2 4 4 natCmp natId)

/-- `lruCacheA` after also adding key 2 (payload `[2,2,2,2]`); the cache is
now at capacity with LRU front-to-back `[2, 1]`, both entries unpinned. -/
def lruCacheB : libcache_t :=
  ((libcache_add (some lruCacheA) (some 2) (some [2, 2, 2, 2])).1).getD
    lruCacheA

/-- A capacity-1 cache whose single resident key 7 is pinned (added with
`src = NULL`): full, with every entry pinned. -/
def fullPinnedCache : libcache_t :=
  ((libcache_add (some (libcache_create 1 4 4 natCmp natId)) (some 7)
      none).1).getD (libcache_create 1 4 4 natCmp natId)

/-- Witness for `lru_front_most_recent`: a `lookup` hit on key 1 and an
`add` of key 3 on `lruCacheB`. -/
theorem lru_front_most_recent_witness :
    (∃ hn cid, hash_find lruCacheB.hash 1 = some hn
      ∧ hn.usr_data.cache_node_ptr = some cid
      ∧ ((libcache_lookup (some lruCacheB) (some 1) none).1.getD
            lruCacheB).lru
          = list_push_front (list_remove lruCacheB.lru cid) cid)
    ∧ (∃ nid,
        ((libcache_add (some lruCacheB) (some 3)
            (some [3, 3, 3, 3])).1.getD lruCacheB).lru.head? = some nid
        ∧ (heapGetD ((libcache_add (some lruCacheB) (some 3)
            (some [3, 3, 3, 3])).1.getD lruCacheB).heap nid).key = 3) := by
  exact ⟨lru_front_most_recent.1 lruCacheB 1 none _ _ rfl,
    lru_front_most_recent.2 lruCacheB 3 (some [3, 3, 3, 3]) _ _ rfl⟩

/-! ## Eviction policy of `libcache_add` (claim C2) -/

/-- C2: on a cache at capacity and a key not resident, `add` returns nothing
when every resident entry is pinned; otherwise it evicts exactly the
first unpinned slot found scanning the LRU from the tail toward the head
(the decomposition `lru = l1 ++ vid :: l2` with every entry of `l2`
pinned and `vid` unpinned), removing it from the LRU, deleting its hash
entry by its own key, reusing its slot for the new key (inserted into the
hash index and pushed to the LRU front), and returning its payload
address. -/
theorem libcache_add_eviction_policy
    (s : libcache_t) (k : Key) (src : Option Bytes)
    (hcap : s.lru.length = s.max_entry_number)
    (hmiss : hash_find s.hash k = none) :
    ((∀ x ∈ s.lru, (heapGetD s.heap x).lock_counter ≠ 0) →
      libcache_add (some s) (some k) src = (some s, none))
    ∧ (∀ (l1 : List ℕ) (vid : ℕ) (l2 : List ℕ)
        (dv : libcache_node_usr_data_t),
        s.lru = l1 ++ vid :: l2 →
        (heapGetD s.heap vid).lock_counter = 0 →
        (∀ x ∈ l2, (heapGetD s.heap x).lock_counter ≠ 0) →
        heapFind s.heap vid = some dv →
        libcache_add (some s) (some k) src =
          (some { s with
              lru := list_push_front (list_remove s.lru vid) vid
              heap := heapSet s.heap vid
                { key := k
                  hash_node_ptr := (hash_add
                    (hash_del s.hash dv.key dv.hash_node_ptr).1 k
                    (some vid)).2
                  pool_element_ptr := dv.pool_element_ptr
                  lock_counter := match src with
                    | none => (0 + 1) % 4294967296
                    | some _ => 0 }
              hash := (hash_add (hash_del s.hash dv.key dv.hash_node_ptr).1
                k (some vid)).1
              mem := match src with
                | some v => memWrite s.mem dv.pool_element_ptr
                    (memcpyBytes (memRead s.mem dv.pool_element_ptr) v
                      s.entry_size)
                | none => s.mem },
           some dv.pool_element_ptr)) := by
  have hfull : s.max_entry_number ≤ s.lru.length := le_of_eq hcap.symm
  constructor
  · intro hall
    have hscan : list_reverse_foreach s.lru
        (libcache_get_unlock_node s.heap) = none := by
      apply list_reverse_foreach_all_pos
      intro x hx
      have hx' := hall x hx
      simp [libcache_get_unlock_node, hx']
    simp only [libcache_add, hmiss, if_pos hfull, hscan]
  · intro l1 vid l2 dv hdecomp hv hl2 hfind
    have hscan : list_reverse_foreach s.lru
        (libcache_get_unlock_node s.heap) = some vid := by
      rw [hdecomp]
      apply list_reverse_foreach_last_zero
      · simp [libcache_get_unlock_node, hv]
      · intro x hx
        have hx' := hl2 x hx
        simp [libcache_get_unlock_node, hx']
    simp only [libcache_add, hmiss, if_pos hfull, hscan, heapGetD_eq hfind]

/-- Witness for `libcache_add_eviction_policy`: the CacheFull case on
`fullPinnedCache` (adding key 9) and the eviction case on `lruCacheB`
(adding key 3 evicts the LRU-tail entry, node 0 holding key 1). -/
theorem libcache_add_eviction_policy_witness :
    libcache_add (some fullPinnedCache) (some 9) (some [4, 4, 4, 4])
      = (some fullPinnedCache, none)
    ∧ libcache_add (some lruCacheB) (some 3) (some [3, 3, 3, 3])
      = (some { lruCacheB with
            lru := list_push_front (list_remove lruCacheB.lru 0) 0
            heap := heapSet lruCacheB.heap 0
              { key := 3
                hash_node_ptr := (hash_add
                  (hash_del lruCacheB.hash 1 (some 0)).1 3 (some 0)).2
                pool_element_ptr := 0
                lock_counter := 0 }
            hash := (hash_add (hash_del lruCacheB.hash 1 (some 0)).1 3
              (some 0)).1
            mem := memWrite lruCacheB.mem 0
              (memcpyBytes (memRead lruCacheB.mem 0) [3, 3, 3, 3]
                lruCacheB.entry_size) },
         some 0) := by
  refine ⟨(libcache_add_eviction_policy fullPinnedCache 9 (some [4, 4, 4, 4])
      (by decide) (by decide)).1 (by decide),
    (libcache_add_eviction_policy lruCacheB 3 (some [3, 3, 3, 3])
      (by decide) (by decide)).2 [1] 0 [] ⟨1, some 0, 0, 0⟩
      (by decide) (by decide) (by decide) (by decide)⟩

/-! ## Pinned entries are protected (claim C3) -/

/-- C3: (i) the eviction scan of `add` never selects a pinned slot; (ii) on
a state whose bookkeeping is intact (resident nodes allocated, a fresh
node id, pool free-list payloads and other slots' payloads distinct from
the pinned entry's payload, and a non-empty free list below capacity),
`add` leaves a pinned entry resident with its slot data and payload bytes
unchanged; (iii) `delete_by_key` on a key resolving to a pinned entry
returns `LIBCACHE_LOCKED` and modifies nothing; (iv) `delete_by_entry`
on a payload resolving to a pinned entry returns `LIBCACHE_LOCKED` and
modifies nothing. -/
theorem pinned_entry_protected :
    (∀ (heap : NodeHeap) (lru : List ℕ) (vid : ℕ),
        list_reverse_foreach lru (libcache_get_unlock_node heap) = some vid →
        (heapGetD heap vid).lock_counter = 0)
    ∧ (∀ (s : libcache_t) (k : Key) (src : Option Bytes) (e : ℕ)
        (de : libcache_node_usr_data_t),
        heapFind s.heap e = some de →
        de.lock_counter ≠ 0 →
        e ∈ s.lru →
        (∀ x ∈ s.lru, (heapFind s.heap x).isSome) →
        heapFind s.heap s.next_node_id = none →
        (s.lru.length < s.max_entry_number → s.pool.free_list ≠ []) →
        (∀ sl ∈ s.pool.free_list, sl.payload ≠ de.pool_element_ptr) →
        (∀ (cid : ℕ) (dd : libcache_node_usr_data_t),
          heapFind s.heap cid = some dd → cid ≠ e →
          dd.pool_element_ptr ≠ de.pool_element_ptr) →
        e ∈ ((libcache_add (some s) (some k) src).1.getD s).lru
        ∧ heapFind ((libcache_add (some s) (some k) src).1.getD s).heap e
            = some de
        ∧ memRead ((libcache_add (some s) (some k) src).1.getD s).mem
            de.pool_element_ptr = memRead s.mem de.pool_element_ptr)
    ∧ (∀ (s : libcache_t) (k : Key) (hn : HashNode) (cid : ℕ)
        (d : libcache_node_usr_data_t),
        hash_find s.hash k = some hn →
        hn.usr_data.cache_node_ptr = some cid →
        heapFind s.heap cid = some d →
        0 < d.lock_counter →
        libcache_delete_by_key (some s) (some k) = (some s, LIBCACHE_LOCKED))
    ∧ (∀ (s : libcache_t) (p : ℕ) (cid : ℕ)
        (d : libcache_node_usr_data_t),
        pool_get_reserved_pointer s.pool (some p) = some cid →
        heapFind s.heap cid = some d →
        0 < d.lock_counter →
        libcache_delete_entry (some s) (some p)
          = (some s, LIBCACHE_LOCKED)) := by
  have scan_unpinned : ∀ (heap : NodeHeap) (lru : List ℕ) (vid : ℕ),
      list_reverse_foreach lru (libcache_get_unlock_node heap) = some vid →
      (heapGetD heap vid).lock_counter = 0 := by
    intro heap lru vid h
    obtain ⟨hz, _⟩ := list_reverse_foreach_stops_at_zero _ h
    by_cases hl : (heapGetD heap vid).lock_counter ≠ 0
    · rw [libcache_get_unlock_node, if_pos hl] at hz
      exact absurd hz (by norm_num)
    · omega
  have scan_mem : ∀ (heap : NodeHeap) (lru : List ℕ) (vid : ℕ),
      list_reverse_foreach lru (libcache_get_unlock_node heap) = some vid →
      vid ∈ lru := by
    intro heap lru vid h
    exact (list_reverse_foreach_stops_at_zero _ h).2
  refine ⟨scan_unpinned, ?_, ?_, ?_⟩
  · intro s k src e de he hlock hmem hheapall hfresh hpool0 hfree hpay
    cases hf : hash_find s.hash k with
    | some hn =>
      simp only [libcache_add, hf]
      exact ⟨hmem, he, rfl⟩
    | none =>
      by_cases hfull : s.max_entry_number ≤ s.lru.length
      · cases hscan : list_reverse_foreach s.lru
            (libcache_get_unlock_node s.heap) with
        | none =>
          simp only [libcache_add, hf, if_pos hfull, hscan]
          exact ⟨hmem, he, rfl⟩
        | some vid =>
          have hvz := scan_unpinned s.heap s.lru vid hscan
          have hvmem := scan_mem s.heap s.lru vid hscan
          have hne : vid ≠ e := by
            intro heq
            rw [heq, heapGetD_eq he] at hvz
            exact hlock hvz
          obtain ⟨dv, hdv⟩ := Option.isSome_iff_exists.mp
            (hheapall vid hvmem)
          simp only [libcache_add, hf, if_pos hfull, hscan, Option.getD_some]
          refine ⟨?_, ?_, ?_⟩
          · exact List.mem_cons_of_mem _
              ((List.mem_erase_of_ne (Ne.symm hne)).mpr hmem)
          · rw [heapFind_set_ne s.heap vid e _ hne, he]
          · cases src with
            | none => rfl
            | some v =>
              have hpv : (heapGetD s.heap vid).pool_element_ptr
                  ≠ de.pool_element_ptr := by
                rw [heapGetD_eq hdv]
                exact hpay vid dv hdv hne
              exact memRead_write_ne s.mem _ _ _ hpv
      · have hlen : s.lru.length < s.max_entry_number := by omega
        obtain ⟨sl, rest, hfl⟩ : ∃ sl rest, s.pool.free_list = sl :: rest := by
          cases hfl : s.pool.free_list with
          | nil => exact absurd hfl (hpool0 hlen)
          | cons sl rest => exact ⟨sl, rest, rfl⟩
        have hpg : (pool_get_element s.pool).2 = some sl.payload := by
          rw [pool_get_element, hfl]
        have hne2 : s.next_node_id ≠ e := by
          intro heq
          rw [heq, he] at hfresh
          exact Option.noConfusion hfresh
        have helem : (pool_get_element s.pool).2.getD 0 = sl.payload := by
          rw [hpg]
          rfl
        have hslne : sl.payload ≠ de.pool_element_ptr :=
          hfree sl (by rw [hfl]; exact List.mem_cons_self sl rest)
        by_cases hsr : (pool_set_reserved_pointer
            (pool_get_element s.pool).1
            ((pool_get_element s.pool).2.getD 0) s.next_node_id).2 = true
        · simp only [libcache_add, hf, if_neg hfull, if_pos hsr, Option.getD_some]
          refine ⟨List.mem_cons_of_mem _ hmem, ?_, ?_⟩
          · rw [heapFind_set_ne s.heap s.next_node_id e _ hne2, he]
          · cases src with
            | none => rfl
            | some v =>
              rw [helem]
              exact memRead_write_ne s.mem _ _ _ hslne
        · simp only [libcache_add, hf, if_neg hfull, if_neg hsr, Option.getD_some]
          refine ⟨hmem, he, ?_⟩
          cases src with
          | none => rfl
          | some v =>
            rw [helem]
            exact memRead_write_ne s.mem _ _ _ hslne
  · intro s k hn cid d hfind hptr hheap hlt
    simp only [libcache_delete_by_key, hfind, hptr, Option.getD_some]
    rw [heapGetD_eq hheap, if_pos hlt]
  · intro s p cid d hres hheap hlt
    simp only [libcache_delete_entry, hres]
    rw [heapGetD_eq hheap, if_pos hlt]

/-- Witness for `pinned_entry_protected` on `cleanPinnedCache` (node 0, key
1, pinned with count 1): an `add` of key 2 leaves it untouched, and both
delete operations return `LIBCACHE_LOCKED` without modifying the cache. -/
theorem pinned_entry_protected_witness :
    (0 ∈ ((libcache_add (some cleanPinnedCache) (some 2)
        (some [5, 5, 5, 5])).1.getD cleanPinnedCache).lru
      ∧ heapFind ((libcache_add (some cleanPinnedCache) (some 2)
          (some [5, 5, 5, 5])).1.getD cleanPinnedCache).heap 0
          = some ⟨1, some 0, 0, 1⟩
      ∧ memRead ((libcache_add (some cleanPinnedCache) (some 2)
          (some [5, 5, 5, 5])).1.getD cleanPinnedCache).mem 0
          = memRead cleanPinnedCache.mem 0)
    ∧ libcache_delete_by_key (some cleanPinnedCache) (some 1)
        = (some cleanPinnedCache, LIBCACHE_LOCKED)
    ∧ libcache_delete_entry (some cleanPinnedCache) (some 0)
        = (some cleanPinnedCache, LIBCACHE_LOCKED) := by
  have hpay0 : ∀ (cid : ℕ) (dd : libcache_node_usr_data_t),
      heapFind cleanPinnedCache.heap cid = some dd → cid ≠ 0 →
      dd.pool_element_ptr ≠ 0 := by
    intro cid dd hfind hne
    rw [(by decide : cleanPinnedCache.heap = [(0, ⟨1, some 0, 0, 1⟩)]),
      heapFind_cons, if_neg (fun h => hne h.symm)] at hfind
    exact absurd hfind (by simp [heapFind])
  exact ⟨pinned_entry_protected.2.1 cleanPinnedCache 2 (some [5, 5, 5, 5]) 0
      ⟨1, some 0, 0, 1⟩ (by decide) (by decide) (by decide) (by decide)
      (by decide) (by decide) (by decide) hpay0,
    pinned_entry_protected.2.2.1 cleanPinnedCache 1 ⟨0, ⟨1, some 0⟩⟩ 0
      ⟨1, some 0, 0, 1⟩ (by decide) rfl (by decide) (by decide),
    pinned_entry_protected.2.2.2 cleanPinnedCache 0 0 ⟨1, some 0, 0, 1⟩
      (by decide) (by decide) (by decide)⟩
